import Mathlib

/-!
Verification of the discord-advertiser dashboard (src/static/js/app.js) and of
the Advertiser Engine components that the specification describes at the API
boundary.  Dashboard functions are embedded directly from the JavaScript
source; engine components (Cooldown Registry, Run Controller, RuntimeStats)
are modelled from the specification because no backend source ships in the
repository.
-/

namespace Advertiser

/- ===== Line-list parsing used by saveTokens / saveProxies ===== -/

/-- Strips leading whitespace characters from a character list; one side of a
JavaScript string trim. -/
def trimLeftChars : List Char → List Char
  | [] => []
  | c :: cs => if c.isWhitespace then trimLeftChars cs else c :: cs

/-- Model of the JavaScript `t.trim()` applied in the textarea filters:
whitespace removed from both ends of the string. -/
def jsTrim (s : String) : String :=
  ⟨(trimLeftChars ((trimLeftChars s.data).reverse)).reverse⟩

/-- Model of the JavaScript `t.startsWith('#')`: the literal first character
of the string is `#` (no whitespace is skipped). -/
def jsStartsWithHash (s : String) : Bool :=
  match s.data with
  | [] => false
  | c :: _ => c == '#'

/-- Worker for splitLines: accumulates the current line in reverse. -/
def splitLinesAux : List Char → List Char → List String
  | [], acc => [⟨acc.reverse⟩]
  | c :: cs, acc =>
      if c = '\n' then ⟨acc.reverse⟩ :: splitLinesAux cs []
      else splitLinesAux cs (c :: acc)

/-- Model of the JavaScript `textarea.value.split('\n')`: the empty string
yields one empty line, and a trailing newline yields a trailing empty line,
exactly as in JavaScript. -/
def splitLines (s : String) : List String :=
  splitLinesAux s.data []

/-- The filter predicate `t => t.trim() && !t.startsWith('#')` shared by
saveTokens and saveProxies: a JavaScript string is truthy exactly when it is
nonempty. -/
def keepLine (t : String) : Bool :=
  !(jsTrim t).data.isEmpty && !(jsStartsWithHash t)

/-- The line list built by both save functions:
`textarea.value.split('\n').filter(t => t.trim() && !t.startsWith('#'))`. -/
def parseLines (text : String) : List String :=
  (splitLines text).filter keepLine

/-- saveTokens (src/static/js/app.js lines 367-399): returns the body of the
`POST tokens` request, or `none` when the function returns early without
issuing any request (`if (tokens.length === 0)`). -/
def saveTokens (text : String) : Option (List String) :=
  let tokens := parseLines text
  if tokens.length = 0 then none else some tokens

/-- saveProxies (src/static/js/app.js lines 417-441): always issues the
`POST proxies` request, with the filtered line list as body. -/
def saveProxies (text : String) : Option (List String) :=
  some (parseLines text)

/-- The keep predicate the specification sentence of C1 describes: a line is
ignored when it is blank or when its first character after leading whitespace
is `#`.  Stated from the spec wording, to be compared with `keepLine`. -/
def specKeepLine (t : String) : Bool :=
  !(jsTrim t).data.isEmpty && !(jsStartsWithHash (jsTrim t))

/- ===== loadChannels cooldown display ===== -/

/-- JavaScript `x || y` on an optional number: `undefined` is modelled as
`none`, and the number `0` is falsy. -/
def jsOrNat : Option Nat → Nat → Nat
  | some n, y => if n = 0 then y else n
  | none, y => y

/-- The cooldown shown for a channel row by loadChannels
(src/static/js/app.js lines 153-196):
`cooldowns[channelId] || currentConfig.default_cooldown || 60`. -/
def displayedCooldown (cooldowns : String → Option Nat)
    (defaultCooldown : Option Nat) (channelId : String) : Nat :=
  jsOrNat (cooldowns channelId) (jsOrNat defaultCooldown 60)

/- ===== loadTokens / loadProxies rendering ===== -/

/-- The JSON body of a `GET tokens` response as the dashboard reads it:
a count, plus whatever token list the backend might include. -/
structure TokensResponse where
  count : Nat
  tokens : List String
deriving DecidableEq

/-- The DOM writes performed by loadTokens: the token-count element text and
the textarea placeholder. -/
structure TokensDomWrites where
  tokenCountText : String
  textareaPlaceholder : String
deriving DecidableEq

/-- loadTokens (src/static/js/app.js lines 349-364): writes
`` `${data.count} tokens` `` and a placeholder built from the count; the
textarea content itself is never populated with token values. -/
def loadTokens (data : TokensResponse) : TokensDomWrites :=
  { tokenCountText := toString data.count ++ " tokens",
    textareaPlaceholder :=
      toString data.count ++ " token(s) loaded. Paste new tokens here to update..." }

/-- The JSON body of a `GET proxies` response as the dashboard reads it. -/
structure ProxiesResponse where
  count : Nat
  proxies : List String
deriving DecidableEq

/-- The DOM writes performed by loadProxies: the proxy-count element text and
the textarea value. -/
structure ProxiesDomWrites where
  proxyCountText : String
  textareaValue : String
deriving DecidableEq

/-- Model of the JavaScript `data.proxies.join('\n')`. -/
def joinLines : List String → String
  | [] => ""
  | [x] => x
  | x :: xs => x ++ "\n" ++ joinLines xs

/-- loadProxies (src/static/js/app.js lines 402-414): writes
`` `${data.count} proxies` `` and fills the textarea with the joined proxy
values. -/
def loadProxies (data : ProxiesResponse) : ProxiesDomWrites :=
  { proxyCountText := toString data.count ++ " proxies",
    textareaValue := joinLines data.proxies }

/- ===== Cooldown Registry ===== -/

/-- Modelled from the spec: result of Cooldown Registry `try_claim`
(section 4.1); the backend source is not in the repository. -/
inductive ClaimResult where
  | Granted
  | Denied (remaining : Nat)
deriving DecidableEq

/-- Modelled from the spec: per-destination registry record
`{cooldown_minutes, last_sent_at, claimed}` (section 3, Destination). -/
structure DestState where
  cooldown : Nat
  last_sent_at : Option Nat
  claimed : Bool
deriving DecidableEq

/-- Modelled from the spec: the Cooldown Registry state, one record per
destination id. -/
abbrev Registry := String → DestState

/-- Remaining cooldown wait for a destination at time `now`: zero when no
send has happened yet or the cooldown has elapsed. -/
def cooldownRemaining (ds : DestState) (now : Nat) : Nat :=
  match ds.last_sent_at with
  | none => 0
  | some t => ds.cooldown - (now - t)

/-- Modelled from the spec (section 4.1): `try_claim(destination_id, now)`.
If `claimed`, deny; else if `now - last_sent_at < cooldown`, deny with the
remaining wait; else set `claimed := true` and grant. -/
def try_claim (reg : Registry) (d : String) (now : Nat) : ClaimResult × Registry :=
  let ds := reg d
  if ds.claimed then (.Denied (cooldownRemaining ds now), reg)
  else if 0 < cooldownRemaining ds now then (.Denied (cooldownRemaining ds now), reg)
  else (.Granted, fun d' => if d' = d then { ds with claimed := true } else reg d')

/-- Modelled from the spec (section 4.1): `release(destination_id, success,
now)` clears `claimed`; on success sets `last_sent_at := now`, otherwise
leaves `last_sent_at` unchanged. -/
def release (reg : Registry) (d : String) (success : Bool) (now : Nat) : Registry :=
  fun d' =>
    let ds := reg d
    if d' = d then
      { ds with
        claimed := false
        last_sent_at := if success then some now else ds.last_sent_at }
    else reg d'

/-- An operation on the Cooldown Registry, used to describe what may happen
between a grant and its matching release. -/
inductive RegOp where
  | claimOp (d : String) (now : Nat)
  | releaseOp (d : String) (success : Bool) (now : Nat)
deriving DecidableEq

/-- Applies one registry operation to the registry state. -/
def applyOp (reg : Registry) : RegOp → Registry
  | .claimOp d now => (try_claim reg d now).2
  | .releaseOp d success now => release reg d success now

/-- Applies a sequence of registry operations, left to right. -/
def applyOps (reg : Registry) : List RegOp → Registry
  | [] => reg
  | op :: ops => applyOps (applyOp reg op) ops

/-- Whether an operation is a release of the given destination. -/
def RegOp.releasesDest (d : String) : RegOp → Bool
  | .releaseOp d' _ _ => d' = d
  | _ => false

/- ===== Run Controller start sequence ===== -/

/-- Modelled from the spec: the resolution of one account's initial
`connect()` call (section 4.5): success, or permanent failure. -/
inductive ConnectOutcome where
  | connectOk
  | connectFailed
deriving DecidableEq

/-- Modelled from the spec: the Run Controller state machine states
(section 4.5), with the error carried by `Stopped`. -/
inductive RunState where
  | Stopped (error : Option String)
  | Starting
  | Running
  | Stopping
deriving DecidableEq

/-- Modelled from the spec: the Run Controller during the start sequence:
current state, connects not yet resolved, and the count of accounts that
reached Active. -/
structure Controller where
  state : RunState
  pending : List ConnectOutcome
  active : Nat
deriving DecidableEq

/-- The error reported when zero accounts reach Active at start. -/
def noActiveError : String := "No accounts could be started"

/-- Modelled from the spec (section 4.5): one step of the start sequence.
While `Starting`, each step resolves one pending connect; once all connects
have resolved, move to `Running` when at least one account is Active and to
`Stopped(error)` when zero are. -/
def stepStart (c : Controller) : Controller :=
  match c.state, c.pending with
  | .Starting, [] =>
      { c with state := if c.active = 0 then .Stopped (some noActiveError) else .Running }
  | .Starting, o :: rest =>
      { c with pending := rest,
               active := c.active + (if o = .connectOk then 1 else 0) }
  | _, _ => c

/-- Iterates the start-sequence step. -/
def stepN : Nat → Controller → Controller
  | 0, c => c
  | n + 1, c => stepN n (stepStart c)

/-- The controller at the moment the start request is accepted: `Starting`,
all connects pending, no account Active yet. -/
def startController (accounts : List ConnectOutcome) : Controller :=
  ⟨.Starting, accounts, 0⟩

/- ===== RuntimeStats updates ===== -/

/-- Modelled from the spec: how a dispatched send completes
(sections 4.4 and 5): success, failure, or cancellation on timeout/stop. -/
inductive SendOutcome where
  | success
  | failure
  | cancelled
deriving DecidableEq

/-- Modelled from the spec: the stats fields the claims concern
(section 3, RuntimeStats). -/
structure RuntimeStats where
  total_sent : Nat
  last_activity_at : Option Nat
deriving DecidableEq

/-- Modelled from the spec: an engine step observable on the stats: a send
attempt completing, or any other engine activity (cycle tick) that does not
touch the counters. -/
inductive EngineEvent where
  | sendCompleted (outcome : SendOutcome) (now : Nat)
  | tick (now : Nat)
deriving DecidableEq

/-- Modelled from the spec (section 4.4, step 3): on completion of each send,
`total_sent` is incremented only on success and `last_activity_at` is updated
on every attempt. -/
def stepStats (s : RuntimeStats) : EngineEvent → RuntimeStats
  | .sendCompleted outcome now =>
      { total_sent := s.total_sent + (if outcome = .success then 1 else 0),
        last_activity_at := some now }
  | .tick _ => s

/-- Folds a sequence of engine events over the stats. -/
def runStats (s : RuntimeStats) : List EngineEvent → RuntimeStats
  | [] => s
  | e :: es => runStats (stepStats s e) es

/- ===== Lemmas about the line filter ===== -/

theorem trimLeftChars_eq_nil_iff (l : List Char) :
    trimLeftChars l = [] ↔ ∀ c ∈ l, c.isWhitespace = true := by
  induction l with
  | nil => simp [trimLeftChars]
  | cons c cs ih =>
    by_cases h : c.isWhitespace = true
    · simp [trimLeftChars, h, ih]
    · simp [trimLeftChars, h]

theorem all_ws_trimLeftChars (l : List Char) :
    (∀ c ∈ trimLeftChars l, c.isWhitespace = true) ↔
      (∀ c ∈ l, c.isWhitespace = true) := by
  induction l with
  | nil => simp [trimLeftChars]
  | cons c cs ih =>
    by_cases h : c.isWhitespace = true
    · simp [trimLeftChars, h, ih]
    · simp [trimLeftChars, h]

theorem jsTrim_data_eq_nil_iff (t : String) :
    (jsTrim t).data = [] ↔ ∀ c ∈ t.data, c.isWhitespace = true := by
  show (trimLeftChars ((trimLeftChars t.data).reverse)).reverse = [] ↔ _
  rw [List.reverse_eq_nil_iff, trimLeftChars_eq_nil_iff]
  simp only [List.mem_reverse]
  exact all_ws_trimLeftChars t.data

theorem jsStartsWithHash_iff (t : String) :
    jsStartsWithHash t = true ↔ t.data.head? = some '#' := by
  cases h : t.data with
  | nil => simp [jsStartsWithHash, h]
  | cons c cs => simp [jsStartsWithHash, h]

theorem keepLine_iff (t : String) :
    keepLine t = true ↔
      ((∃ c ∈ t.data, c.isWhitespace = false) ∧ t.data.head? ≠ some '#') := by
  constructor
  · intro h
    simp only [keepLine, Bool.and_eq_true, Bool.not_eq_true'] at h
    obtain ⟨h1, h2⟩ := h
    constructor
    · by_contra hc
      push_neg at hc
      have hall : ∀ c ∈ t.data, c.isWhitespace = true := by
        intro c hcm
        have := hc c hcm
        simpa using this
      have hnil := (jsTrim_data_eq_nil_iff t).mpr hall
      rw [hnil] at h1
      simp at h1
    · intro hhead
      have hw := (jsStartsWithHash_iff t).mpr hhead
      rw [hw] at h2
      cases h2
  · rintro ⟨⟨c, hc, hw⟩, hhead⟩
    simp only [keepLine, Bool.and_eq_true, Bool.not_eq_true']
    constructor
    · cases hh : (jsTrim t).data.isEmpty
      · rfl
      · exfalso
        have hnil : (jsTrim t).data = [] := by
          cases hd : (jsTrim t).data
          · rfl
          · rw [hd] at hh; cases hh
        have hall := (jsTrim_data_eq_nil_iff t).mp hnil
        have := hall c hc
        rw [hw] at this
        cases this
    · cases hh : jsStartsWithHash t
      · rfl
      · exact absurd ((jsStartsWithHash_iff t).mp hh) hhead

theorem parseLines_eq_nil (text : String)
    (h : ∀ l ∈ splitLines text, (jsTrim l).data = [] ∨ l.data.head? = some '#') :
    parseLines text = [] := by
  unfold parseLines
  rw [List.filter_eq_nil_iff]
  intro l hl hk
  rcases h l hl with hb | hh
  · obtain ⟨⟨c, hc, hw⟩, _⟩ := (keepLine_iff l).mp hk
    have hall := (jsTrim_data_eq_nil_iff l).mp hb
    have := hall c hc
    rw [hw] at this
    cases this
  · exact ((keepLine_iff l).mp hk).2 hh

/- ===== C1 ===== -/

/-- C1 (counterexample): a line whose first character after leading
whitespace is `#` is NOT ignored by saveTokens / saveProxies — the filter
tests `t.startsWith('#')` on the untrimmed line, so the line `"  #c"` is kept
and sent to the server, contrary to the claim. -/
theorem hash_after_whitespace_line_sent :
    saveTokens "  #c\ntok1" = some ["  #c", "tok1"] ∧
    saveProxies "  #c\ntok1" = some ["  #c", "tok1"] ∧
    jsStartsWithHash (jsTrim "  #c") = true ∧
    specKeepLine "  #c" = false := by decide

/-- C1 (amended): the list sent by saveTokens (whenever it issues a request)
and by saveProxies is exactly the newline-split input filtered by `keepLine`,
and a line is kept iff it contains a non-whitespace character and its literal
first character (no whitespace skipped) is not `#`. -/
theorem sent_list_is_literal_hash_filter (text : String) (sent : List String)
    (h : saveTokens text = some sent) :
    sent = (splitLines text).filter keepLine ∧
    saveProxies text = some ((splitLines text).filter keepLine) ∧
    ∀ t : String, keepLine t = true ↔
      ((∃ c ∈ t.data, c.isWhitespace = false) ∧ t.data.head? ≠ some '#') := by
  refine ⟨?_, rfl, fun t => keepLine_iff t⟩
  simp only [saveTokens, parseLines] at h
  split at h
  · cases h
  · exact (Option.some_inj.mp h).symm

/-- C1 (witness for the amended theorem). -/
theorem sent_list_is_literal_hash_filter_check :
    (["tok1"] = (splitLines "tok1").filter keepLine) ∧
    saveProxies "tok1" = some ((splitLines "tok1").filter keepLine) ∧
    (keepLine "  #c" = true ↔
      ((∃ c ∈ ("  #c" : String).data, c.isWhitespace = false) ∧
        ("  #c" : String).data.head? ≠ some '#')) := by
  have h := sent_list_is_literal_hash_filter "tok1" ["tok1"] (by decide)
  exact ⟨h.1, h.2.1, h.2.2 "  #c"⟩

/- ===== C2 ===== -/

/-- A channel-cooldown map with one channel set to cooldown 0. -/
def cooldownsEx : String → Option Nat :=
  fun ch => if ch = "123" then some 0 else none

/-- C2 (counterexample): a destination whose cooldown is set to 0 does not
display 0 — JavaScript `||` treats 0 as falsy, so the configured default (45
here) is displayed instead. -/
theorem cooldown_zero_not_displayed :
    cooldownsEx "123" = some 0 ∧
    displayedCooldown cooldownsEx (some 45) "123" = 45 ∧
    displayedCooldown cooldownsEx (some 45) "123" ≠ 0 := by decide

/-- C2 (amended): a destination whose cooldown is unset or set to 0 displays
the default chain (`default_cooldown`, itself falling back to 60 when unset
or 0); a destination whose cooldown is set to a nonzero value displays that
value. -/
theorem cooldown_display_semantics (cooldowns : String → Option Nat)
    (dflt : Option Nat) (ch : String) :
    ((cooldowns ch = none ∨ cooldowns ch = some 0) →
        displayedCooldown cooldowns dflt ch = jsOrNat dflt 60) ∧
    (∀ n, cooldowns ch = some n → n ≠ 0 →
        displayedCooldown cooldowns dflt ch = n) := by
  constructor
  · rintro (h | h) <;> simp [displayedCooldown, jsOrNat, h]
  · intro n h hn
    simp [displayedCooldown, jsOrNat, h, hn]

/-- A channel-cooldown map with one channel set to a nonzero cooldown. -/
def cooldownsEx2 : String → Option Nat :=
  fun ch => if ch = "a" then some 30 else none

/-- C2 (witness for the amended theorem). -/
theorem cooldown_display_semantics_check :
    displayedCooldown cooldownsEx2 (some 45) "b" = jsOrNat (some 45) 60 ∧
    displayedCooldown cooldownsEx2 (some 45) "a" = 30 := by
  have h1 := cooldown_display_semantics cooldownsEx2 (some 45) "b"
  have h2 := cooldown_display_semantics cooldownsEx2 (some 45) "a"
  exact ⟨h1.1 (Or.inl (by decide)), h2.2 30 (by decide) (by decide)⟩

/- ===== C3 ===== -/

/-- C3: the DOM writes of loadTokens depend only on the reported count —
two responses with the same count but arbitrary (even secret-bearing) token
lists render identically, so no credential value can flow into the dashboard
state. -/
theorem loadTokens_depends_only_on_count (d1 d2 : TokensResponse)
    (h : d1.count = d2.count) : loadTokens d1 = loadTokens d2 := by
  simp [loadTokens, h]

/-- C3 (witness). -/
theorem loadTokens_depends_only_on_count_check :
    loadTokens ⟨3, ["secret-token-value"]⟩ = loadTokens ⟨3, []⟩ :=
  loadTokens_depends_only_on_count ⟨3, ["secret-token-value"]⟩ ⟨3, []⟩ rfl

/- ===== C8 ===== -/

/-- C8: when every input line is blank (trims to empty) or literally starts
with `#`, saveTokens returns early and issues no request. -/
theorem saveTokens_blank_or_hash_no_request (text : String)
    (h : ∀ l ∈ splitLines text, (jsTrim l).data = [] ∨ l.data.head? = some '#') :
    saveTokens text = none := by
  have hp := parseLines_eq_nil text h
  simp [saveTokens, hp]

/-- C8 (witness). -/
theorem saveTokens_blank_or_hash_no_request_check :
    saveTokens "#a\n   " = none :=
  saveTokens_blank_or_hash_no_request "#a\n   " (by decide)

/- ===== C9 ===== -/

/-- C9: on the same all-blank-or-comment input on which saveTokens refuses to
send, saveProxies still issues the request, with the empty proxy list as
body — replacing the proxy pool with the empty set. -/
theorem saveProxies_blank_or_hash_posts_empty (text : String)
    (h : ∀ l ∈ splitLines text, (jsTrim l).data = [] ∨ l.data.head? = some '#') :
    saveProxies text = some [] ∧ saveTokens text = none := by
  have hp := parseLines_eq_nil text h
  constructor
  · simp [saveProxies, hp]
  · simp [saveTokens, hp]

/-- C9 (witness). -/
theorem saveProxies_blank_or_hash_posts_empty_check :
    saveProxies "   \n#b" = some [] ∧ saveTokens "   \n#b" = none :=
  saveProxies_blank_or_hash_posts_empty "   \n#b" (by decide)

/- ===== C10 ===== -/

theorem data_append (s t : String) : (s ++ t).data = s.data ++ t.data := by
  cases s; cases t; rfl

theorem newline_data : ("\n" : String).data = ['\n'] := rfl

theorem mem_joinLines (ps : List String) (p : String) (hp : p ∈ ps) :
    ∃ l r, (joinLines ps).data = l ++ p.data ++ r := by
  induction ps with
  | nil => cases hp
  | cons x xs ih =>
    cases hp with
    | head =>
      cases xs with
      | nil => exact ⟨[], [], by simp [joinLines]⟩
      | cons y rest =>
        refine ⟨[], '\n' :: (joinLines (y :: rest)).data, ?_⟩
        simp [joinLines, data_append, newline_data]
    | tail _ hmem =>
      cases xs with
      | nil => cases hmem
      | cons y rest =>
        obtain ⟨l, r, hlr⟩ := ih hmem
        refine ⟨x.data ++ '\n' :: l, r, ?_⟩
        simp [joinLines, data_append, newline_data, hlr]

/-- C10: loadProxies fills the textarea with the newline-join of the full
proxy values returned by the server — every proxy entry appears verbatim
(as a contiguous character run) in the rendered value, unlike the
count-only rendering of credentials. -/
theorem loadProxies_echoes_full_values (data : ProxiesResponse) (p : String)
    (hp : p ∈ data.proxies) :
    (loadProxies data).textareaValue = joinLines data.proxies ∧
    ∃ l r, ((loadProxies data).textareaValue).data = l ++ p.data ++ r :=
  ⟨rfl, mem_joinLines data.proxies p hp⟩

/-- C10 (witness). -/
theorem loadProxies_echoes_full_values_check :
    (loadProxies ⟨2, ["1.2.3.4:8080", "5.6.7.8:3128"]⟩).textareaValue
        = joinLines ["1.2.3.4:8080", "5.6.7.8:3128"] ∧
    ∃ l r, ((loadProxies ⟨2, ["1.2.3.4:8080", "5.6.7.8:3128"]⟩).textareaValue).data
        = l ++ ("5.6.7.8:3128" : String).data ++ r :=
  loadProxies_echoes_full_values ⟨2, ["1.2.3.4:8080", "5.6.7.8:3128"]⟩
    "5.6.7.8:3128" (by decide)

/- ===== C4 ===== -/

theorem applyOp_claimed (reg : Registry) (d : String) (op : RegOp)
    (hc : (reg d).claimed = true) (hop : op.releasesDest d = false) :
    ((applyOp reg op) d).claimed = true := by
  cases op with
  | claimOp d' now =>
    simp only [applyOp, try_claim]
    by_cases h1 : (reg d').claimed = true
    · simp [h1, hc]
    · by_cases h2 : 0 < cooldownRemaining (reg d') now
      · simp [h1, h2, hc]
      · simp only [h1, h2, if_false, if_neg, Bool.not_eq_true]
        by_cases h3 : d = d'
        · subst h3; exact absurd hc h1
        · simp [h1, h2, h3, hc]
  | releaseOp d' s now =>
    simp only [RegOp.releasesDest, decide_eq_false_iff_not] at hop
    have h3 : ¬ d = d' := fun h => hop h.symm
    simp [applyOp, release, h3, hc]

theorem applyOps_claimed (reg : Registry) (d : String) (ops : List RegOp)
    (hc : (reg d).claimed = true) (hops : ∀ op ∈ ops, op.releasesDest d = false) :
    ((applyOps reg ops) d).claimed = true := by
  induction ops generalizing reg with
  | nil => exact hc
  | cons op ops ih =>
    exact ih (applyOp reg op)
      (applyOp_claimed reg d op hc (hops op (List.mem_cons_self op ops)))
      (fun o ho => hops o (List.mem_cons_of_mem op ho))

theorem try_claim_granted_claimed (reg : Registry) (d : String) (now : Nat)
    (h : (try_claim reg d now).1 = .Granted) :
    (((try_claim reg d now).2) d).claimed = true := by
  by_cases h1 : (reg d).claimed = true
  · simp [try_claim, h1] at h
  · by_cases h2 : 0 < cooldownRemaining (reg d) now
    · simp [try_claim, h1, h2] at h
    · simp [try_claim, h1, h2]

theorem try_claim_denied_of_claimed (reg : Registry) (d : String) (now : Nat)
    (h : (reg d).claimed = true) :
    (try_claim reg d now).1 = .Denied (cooldownRemaining (reg d) now) := by
  simp [try_claim, h]

/-- C4: once `try_claim` grants a destination, any second `try_claim` on that
destination is `Denied` as long as no `release` for that destination has
happened — whatever other registry operations (claims on any destination,
releases of other destinations) occur in between, and at any later query
time. -/
theorem try_claim_mutual_exclusion (reg : Registry) (d : String) (now : Nat)
    (h : (try_claim reg d now).1 = .Granted)
    (ops : List RegOp) (hops : ∀ op ∈ ops, op.releasesDest d = false)
    (now' : Nat) :
    ∃ rem, (try_claim (applyOps (try_claim reg d now).2 ops) d now').1
      = .Denied rem := by
  have hc := applyOps_claimed (try_claim reg d now).2 d ops
      (try_claim_granted_claimed reg d now h) hops
  exact ⟨cooldownRemaining ((applyOps (try_claim reg d now).2 ops) d) now',
    try_claim_denied_of_claimed _ d now' hc⟩

/-- A registry in which every destination is unclaimed and never sent to. -/
def regEx : Registry := fun _ => ⟨60, none, false⟩

/-- C4 (witness). -/
theorem try_claim_mutual_exclusion_check :
    ∃ rem, (try_claim (applyOps (try_claim regEx "123" 0).2 []) "123" 5).1
      = ClaimResult.Denied rem :=
  try_claim_mutual_exclusion regEx "123" 0 (by decide) []
    (fun op ho => absurd ho (List.not_mem_nil op)) 5

/- ===== C5 ===== -/

theorem cooldownRemaining_claimed_irrel (ds : DestState) (b : Bool) (now : Nat) :
    cooldownRemaining { ds with claimed := b } now = cooldownRemaining ds now := by
  cases ds; rfl

theorem try_claim_granted_of (reg : Registry) (d : String) (now : Nat)
    (h1 : (reg d).claimed = false) (h2 : cooldownRemaining (reg d) now = 0) :
    (try_claim reg d now).1 = .Granted := by
  simp [try_claim, h1, h2]

/-- C5: `release(d, success := false, now)` clears the claimed flag, leaves
`last_sent_at` and the cooldown of `d` unchanged, leaves every other
destination's record untouched, and a subsequent `try_claim` on `d` is
`Granted` at any time at which the cooldown had already elapsed (or is
zero). -/
theorem release_failure_frame (reg : Registry) (d : String) (now : Nat) :
    ((release reg d false now) d).claimed = false ∧
    ((release reg d false now) d).last_sent_at = (reg d).last_sent_at ∧
    ((release reg d false now) d).cooldown = (reg d).cooldown ∧
    (∀ d', d' ≠ d → (release reg d false now) d' = reg d') ∧
    (∀ now', cooldownRemaining (reg d) now' = 0 →
      (try_claim (release reg d false now) d now').1 = .Granted) := by
  have hds : (release reg d false now) d = { reg d with claimed := false } := by
    simp [release]
  refine ⟨?_, ?_, ?_, ?_, ?_⟩
  · rw [hds]
  · rw [hds]
  · rw [hds]
  · intro d' hd
    simp [release, hd]
  · intro now' hcd
    refine try_claim_granted_of _ d now' ?_ ?_
    · rw [hds]
    · rw [hds, cooldownRemaining_claimed_irrel]
      exact hcd

/-- A registry with one claimed destination last sent to at time 100. -/
def regEx2 : Registry := fun _ => ⟨60, some 100, true⟩

/-- C5 (witness). -/
theorem release_failure_frame_check :
    ((release regEx2 "d" false 120) "d").claimed = false ∧
    ((release regEx2 "d" false 120) "d").last_sent_at = (regEx2 "d").last_sent_at ∧
    ((release regEx2 "d" false 120) "d").cooldown = (regEx2 "d").cooldown ∧
    (release regEx2 "d" false 120) "other" = regEx2 "other" ∧
    (try_claim (release regEx2 "d" false 120) "d" 200).1 = ClaimResult.Granted := by
  have h := release_failure_frame regEx2 "d" 120
  exact ⟨h.1, h.2.1, h.2.2.1, h.2.2.2.1 "other" (by decide),
    h.2.2.2.2 200 (by decide)⟩

/- ===== C6 ===== -/

/-- Invariant of the start sequence when every pending connect fails:
either still `Starting` with no Active account and all remaining connects
failing, or already `Stopped` with the zero-active error. -/
def startInv (c : Controller) : Prop :=
  (c.state = .Starting ∧ c.active = 0 ∧ ∀ a ∈ c.pending, a = .connectFailed) ∨
  c.state = .Stopped (some noActiveError)

theorem stepStart_inv (c : Controller) (h : startInv c) : startInv (stepStart c) := by
  obtain ⟨st, pend, act⟩ := c
  rcases h with ⟨hs, ha, hp⟩ | hs
  · simp only at hs ha hp
    subst hs
    subst ha
    cases pend with
    | nil =>
      right
      simp [stepStart]
    | cons o rest =>
      left
      have ho : o = .connectFailed := hp o (List.mem_cons_self o rest)
      refine ⟨?_, ?_, ?_⟩
      · simp [stepStart]
      · simp [stepStart, ho]
      · intro a hma
        simp only [stepStart] at hma
        exact hp a (List.mem_cons_of_mem o hma)
  · simp only at hs
    subst hs
    right
    simp [stepStart]

theorem stepN_inv (n : Nat) (c : Controller) (h : startInv c) :
    startInv (stepN n c) := by
  induction n generalizing c with
  | zero => exact h
  | succ n ih => exact ih (stepStart c) (stepStart_inv c h)

theorem stepN_start_all_failed (accounts : List ConnectOutcome)
    (h : ∀ a ∈ accounts, a = .connectFailed) :
    stepN (accounts.length + 1) (⟨.Starting, accounts, 0⟩ : Controller)
      = ⟨.Stopped (some noActiveError), [], 0⟩ := by
  induction accounts with
  | nil => simp [stepN, stepStart]
  | cons o rest ih =>
    have ho : o = .connectFailed := h o (List.mem_cons_self o rest)
    have hrest : ∀ a ∈ rest, a = .connectFailed :=
      fun a ha => h a (List.mem_cons_of_mem o ha)
    have hstep : stepStart ⟨.Starting, o :: rest, 0⟩
        = (⟨.Starting, rest, 0⟩ : Controller) := by
      simp [stepStart, ho]
    show stepN (rest.length + 1 + 1) ⟨.Starting, o :: rest, 0⟩ = _
    calc stepN (rest.length + 1 + 1) ⟨.Starting, o :: rest, 0⟩
        = stepN (rest.length + 1) (stepStart ⟨.Starting, o :: rest, 0⟩) := rfl
      _ = stepN (rest.length + 1) ⟨.Starting, rest, 0⟩ := by rw [hstep]
      _ = ⟨.Stopped (some noActiveError), [], 0⟩ := ih hrest

/-- C6: when zero accounts reach Active during the start sequence, the Run
Controller never passes through `Running` at any step, and once all connects
have resolved it lands in `Stopped` with the reported error. -/
theorem start_zero_active_never_running (accounts : List ConnectOutcome)
    (h : ∀ a ∈ accounts, a = .connectFailed) :
    (∀ n, (stepN n (startController accounts)).state ≠ .Running) ∧
    (stepN (accounts.length + 1) (startController accounts)).state
      = .Stopped (some noActiveError) := by
  constructor
  · intro n
    have hinv : startInv (stepN n (startController accounts)) :=
      stepN_inv n _ (Or.inl ⟨rfl, rfl, h⟩)
    rcases hinv with ⟨hs, _, _⟩ | hs <;> rw [hs] <;> simp
  · have hfin := stepN_start_all_failed accounts h
    show (stepN (accounts.length + 1) ⟨.Starting, accounts, 0⟩).state = _
    rw [hfin]

/-- C6 (witness). -/
theorem start_zero_active_never_running_check :
    (stepN 5 (startController
        [ConnectOutcome.connectFailed, ConnectOutcome.connectFailed])).state
      ≠ RunState.Running ∧
    (stepN 3 (startController
        [ConnectOutcome.connectFailed, ConnectOutcome.connectFailed])).state
      = RunState.Stopped (some noActiveError) := by
  have h := start_zero_active_never_running
      [ConnectOutcome.connectFailed, ConnectOutcome.connectFailed] (by decide)
  exact ⟨h.1 5, h.2⟩

/- ===== C7 ===== -/

theorem stepStats_mono (s : RuntimeStats) (e : EngineEvent) :
    s.total_sent ≤ (stepStats s e).total_sent := by
  cases e with
  | sendCompleted o now => exact Nat.le_add_right _ _
  | tick now => exact Nat.le_refl _

theorem runStats_mono (s : RuntimeStats) (es : List EngineEvent) :
    s.total_sent ≤ (runStats s es).total_sent := by
  induction es generalizing s with
  | nil => exact Nat.le_refl _
  | cons e es ih => exact Nat.le_trans (stepStats_mono s e) (ih (stepStats s e))

/-- C7: `total_sent` never decreases over any engine step (and hence over any
run of steps); it is incremented by exactly one when a send completes
successfully and is unchanged on failed or cancelled sends, while
`last_activity_at` is set to the attempt time on every completion. -/
theorem total_sent_monotone_success_only (s : RuntimeStats) (e : EngineEvent)
    (es : List EngineEvent) :
    s.total_sent ≤ (stepStats s e).total_sent ∧
    s.total_sent ≤ (runStats s es).total_sent ∧
    (∀ o now,
      ((stepStats s (.sendCompleted o now)).last_activity_at = some now) ∧
      (o = .success →
        (stepStats s (.sendCompleted o now)).total_sent = s.total_sent + 1) ∧
      (o ≠ .success →
        (stepStats s (.sendCompleted o now)).total_sent = s.total_sent)) := by
  refine ⟨stepStats_mono s e, runStats_mono s es, ?_⟩
  intro o now
  refine ⟨rfl, ?_, ?_⟩
  · intro ho
    subst ho
    simp [stepStats]
  · intro ho
    simp [stepStats, ho]

/-- C7 (witness). -/
theorem total_sent_monotone_success_only_check :
    (⟨7, none⟩ : RuntimeStats).total_sent
        ≤ (stepStats ⟨7, none⟩ (.sendCompleted .failure 3)).total_sent ∧
    (⟨7, none⟩ : RuntimeStats).total_sent
        ≤ (runStats ⟨7, none⟩ [.sendCompleted .success 3, .tick 4]).total_sent ∧
    (stepStats ⟨7, none⟩ (.sendCompleted .cancelled 9)).last_activity_at = some 9 ∧
    (stepStats ⟨7, none⟩ (.sendCompleted .success 9)).total_sent = 8 ∧
    (stepStats ⟨7, none⟩ (.sendCompleted .cancelled 9)).total_sent = 7 := by
  have h := total_sent_monotone_success_only ⟨7, none⟩ (.sendCompleted .failure 3)
      [.sendCompleted .success 3, .tick 4]
  exact ⟨h.1, h.2.1, (h.2.2 .cancelled 9).1, (h.2.2 .success 9).2.1 rfl,
    (h.2.2 .cancelled 9).2.2 (by decide)⟩

end Advertiser
